import Mathlib

/-
Verification of the skiptrap trace checker (`check_skiptrap.py`): a shallow
embedding of its verification engine (the matching loop over `EXP`, the order
check, the g_data0 exactly-once check, the misaligned-store negative check,
the objdump scanner `parse_objdump_for_final_reg_pc` and the register-check
stage), together with theorems settling the specification claims.
-/

namespace Skiptrap

/-- A memory-write event as parsed by `parse_memw` from a `[MEMW]` log line
`[MEMW] pc=0x.. addr=0x.. data=0x.. mask=0x..`. -/
structure MemW where
  pc : Nat
  addr : Nat
  data : Nat
  mask : Nat
deriving DecidableEq, Repr

/-- A register-write event as parsed by `parse_reg` from a `[REG]` log line
`[REG] pc=0x.. x<rd> <= 0x<val>`. -/
structure RegW where
  pc : Nat
  rd : Nat
  val : Nat
deriving DecidableEq, Repr

/-- An expected memory-write event (one entry of the `EXP` list built in
`main`); `pc` is `none` when the owning `L_*` label was absent from the
symbol table (`syms.get` returned `None`). -/
structure ExpEvent where
  pc : Option Nat
  addr : Nat
  data : Nat
  mask : Nat
deriving DecidableEq, Repr

/-- An expected register check (one entry of the `REG_EXP` list in `main`). -/
structure RegChk where
  label : String
  rd : Nat
  val : Nat
deriving DecidableEq, Repr

/-- The errors `main` appends to its `errors` list, one constructor per
append site, carrying the data interpolated into the message string. -/
inductive CheckError where
  | symbolNotFound (e : ExpEvent)
  | missingWrite (pc addr data mask : Nat)
  | orderMismatch (i j : Nat)
  | spuriousWrite (count : Nat)
  | unexpectedTrapWrite
  | labelNotFound (label : String)
  | missingRegisterWrite (pc rd val : Nat) (label : String)
deriving DecidableEq, Repr

/-- The pipeline-skew tolerance offsets tried by `main`, in source order:
`for off in (0, 2, 4, 6, 8)`. -/
def skewOffsets : List Nat := [0, 2, 4, 6, 8]

/-- Whether observed write `w` structurally matches expected event `e`
(with resolved pc `epc`) at skew offset `off`: the predicate of the
generator expression in `main`
(`w.pc == e.pc + off and w.addr == e.addr and w.mask == e.mask and
w.data == e.data`). -/
def memwMatchAt (e : ExpEvent) (epc off : Nat) (w : MemW) : Bool :=
  w.pc == epc + off && w.addr == e.addr && w.mask == e.mask && w.data == e.data

/-- The skew-tolerant search of `main`: try each offset in order; at each
offset take the index of the first structurally matching observed event
(`next((i for i, w in enumerate(got) if ...), None)`); stop at the first
offset that yields any index. -/
def matchEvent (got : List MemW) (e : ExpEvent) (epc : Nat) : Option Nat :=
  skewOffsets.findSome? (fun off => got.findIdx? (memwMatchAt e epc off))

/-- One iteration of the matching loop of `main` for expected event `e`:
either a `symbolNotFound` error (when `e.pc is None`), or a recorded
position, or a `missingWrite` error carrying pc, addr, data and mask. -/
def matchOne (got : List MemW) (e : ExpEvent) : Option CheckError × Option Nat :=
  match e.pc with
  | none => (some (CheckError.symbolNotFound e), none)
  | some epc =>
    match matchEvent got e epc with
    | some cand => (none, some cand)
    | none => (some (CheckError.missingWrite epc e.addr e.data e.mask), none)

/-- The matching loop of `main` over the whole `EXP` list: the collected
errors (in loop order) and the `positions` table, one slot per expected
index (`none` where the loop recorded an error instead of a position). -/
def matchStage (exp : List ExpEvent) (got : List MemW) :
    List CheckError × List (Option Nat) :=
  let rs := exp.map (matchOne got)
  (rs.filterMap Prod.fst, rs.map Prod.snd)

/-- The order check of `main`: for each adjacent pair of expected indices
`(i, i+1)`, the matched positions must be strictly increasing
(`positions[i] >= positions[i+1]` is an error). `ps` is the full position
list, defined at every index whenever this stage runs. -/
def orderStage (ps : List Nat) : List CheckError :=
  (List.range (ps.length - 1)).filterMap fun i =>
    if ps.getD (i + 1) 0 ≤ ps.getD i 0 then
      some (CheckError.orderMismatch i (i + 1))
    else none

/-- Stages 1-3 of `main`: the matching loop over `EXP` followed by the
order check, which runs only when the loop produced no errors (in which
case every position slot is populated). -/
def checkMemStage (exp : List ExpEvent) (got : List MemW) : List CheckError :=
  let r := matchStage exp got
  r.1 ++ (if r.1.isEmpty then orderStage (r.2.filterMap id) else [])

/-- Stage 4 of `main`, the g_data0 exactly-once check (not gated on the
earlier stages): the writes observed at address `gd0` must be exactly one
event carrying data `0x12345678` and mask `0xF`. The `headD` default is
read only when the filtered list is empty, in which case the length test
has already failed. -/
def gdata0Check (gd0 : Nat) (got : List MemW) : List CheckError :=
  let ws := got.filter (fun w => w.addr == gd0)
  if ws.length == 1 && (ws.headD ⟨0, 0, 0, 0⟩).data == 0x12345678 &&
      (ws.headD ⟨0, 0, 0, 0⟩).mask == 0xF then []
  else [CheckError.spuriousWrite ws.length]

/-- Stage 5 of `main`, the negative check (not gated on the earlier
stages): no observed write may retire at the pc of the intentionally
misaligned store; skipped when `L_MISALIGNED_SW` is unresolved. -/
def misalignedCheck (misPc : Option Nat) (got : List MemW) : List CheckError :=
  match misPc with
  | none => []
  | some p =>
    if got.any (fun w => w.pc == p) then [CheckError.unexpectedTrapWrite] else []

/-- One line of the objdump listing, as classified by the three mutually
exclusive regexes of `parse_objdump_for_final_reg_pc`: `label_re` and
`next_label_re` match label header lines `<hex> <name>:`; `insn_re`
matches instruction lines `<hex>: <raw-bytes> <mnemonic> <operands>`,
with `ops` the comma-split, stripped, nonempty operand fields; every
other line is `other`. -/
inductive ObjLine where
  | labelHeader (addr : Nat) (name : String)
  | insn (pc : Nat) (mnem : String) (ops : List String)
  | other
deriving DecidableEq, Repr

/-- The `write_mnems` allow-list of `parse_objdump_for_final_reg_pc`. -/
def write_mnems : List String :=
  ["addi", "add", "sub", "lui", "ori", "xori", "andi",
   "slli", "srli", "srai", "auipc", "and", "or", "xor",
   "sll", "srl", "sra", "slti", "sltiu", "slt", "sltu",
   "jal", "jalr", "csrrw", "csrrs", "csrrc", "csrrwi", "csrrsi", "csrrci", "li"]

/-- The store and conditional-branch mnemonics excluded by
`parse_objdump_for_final_reg_pc` (`mnem not in (...)`). -/
def store_branch_mnems : List String :=
  ["sb", "sh", "sw", "beq", "bne", "blt", "bge", "bltu", "bgeu"]

/-- The `abi_map` alias table of `parse_objdump_for_final_reg_pc`
(`{5:"t0", 6:"t1", 7:"t2", 28:"t3"}`; `dict.get` on any other index is
`None`). -/
def abi_map : Nat → Option String
  | 5 => some "t0"
  | 6 => some "t1"
  | 7 => some "t2"
  | 28 => some "t3"
  | _ => none

/-- The test `mnem.startswith("c.")` of `parse_objdump_for_final_reg_pc`,
expressed over the character list of the string. -/
def startsWithCDot (mnem : String) : Bool :=
  "c.".data.isPrefixOf mnem.data

/-- The candidate-write test applied to one parsed instruction line in
`parse_objdump_for_final_reg_pc`: the first operand denotes register
`rd` (plain numeric name `x<rd>` or its ABI alias), the mnemonic is not
an uncompressed store/conditional-branch, and the mnemonic is in the
allow-list or starts with `c.`. -/
def isCandidateWrite (rd : Nat) (mnem : String) (ops : List String) : Bool :=
  match ops with
  | [] => false
  | op0 :: _ =>
    (op0 == "x" ++ toString rd || abi_map rd == some op0) &&
      !(store_branch_mnems.contains mnem) &&
      (write_mnems.contains mnem || startsWithCDot mnem)

/-- Whether a line is a label header (the `next_label_re` match). -/
def ObjLine.isHeader : ObjLine → Bool
  | .labelHeader _ _ => true
  | _ => false

/-- Whether a line is the header introducing `label` (the `label_re`
match for the requested label). -/
def isLabelLine (label : String) : ObjLine → Bool
  | .labelHeader _ name => name == label
  | _ => false

/-- The candidate pc contributed by one line, if any. -/
def candPC (rd : Nat) : ObjLine → Option Nat
  | .insn pc mnem ops => if isCandidateWrite rd mnem ops then some pc else none
  | _ => none

/-- The scanning loop of `parse_objdump_for_final_reg_pc`: walk the lines
after the label header, stop at the next label header, and remember in
`last` the pc of the most recent candidate write. -/
def scanBlock (rd : Nat) : List ObjLine → Option Nat → Option Nat
  | [], last => last
  | .labelHeader _ _ :: _, last => last
  | .insn pc mnem ops :: rest, last =>
      scanBlock rd rest (if isCandidateWrite rd mnem ops then some pc else last)
  | .other :: rest, last => scanBlock rd rest last

/-- `parse_objdump_for_final_reg_pc`: `none` for `listing` models the
missing objdump file (the `os.path.exists` guard); otherwise locate the
first header line introducing `label` and scan its block. -/
def parse_objdump_for_final_reg_pc (listing : Option (List ObjLine))
    (label : String) (rd : Nat) : Option Nat :=
  match listing with
  | none => none
  | some lines =>
    match lines.findIdx? (isLabelLine label) with
    | none => none
    | some i => scanBlock rd (lines.drop (i + 1)) none

/-- The candidate pcs of the block that begins after the label header:
the lines up to (excluding) the next header, filtered to candidate
writes, in line order. -/
def blockCands (rd : Nat) (ls : List ObjLine) : List Nat :=
  (ls.takeWhile (fun l => !l.isHeader)).filterMap (candPC rd)

/-- The `REG_EXP` list of `main`. -/
def REG_EXP : List RegChk :=
  [⟨"L_LI_T0", 5, 0x12345678⟩, ⟨"L_LI_T1", 6, 0xABCDEF01⟩,
   ⟨"L_LI_T2", 7, 0x11223344⟩, ⟨"L_LI_T3", 28, 0x0⟩, ⟨"L_LI_T0_1", 5, 0x1⟩]

/-- Stage 6 of `main`: the two loops over `REG_EXP`. The first loop
records a `labelNotFound` error per entry whose pc derivation failed; the
second checks, for each derived pc, that some observed register write
matches it exactly. The intermediate `final_pc_map` dict reduces to
recomputing the pure scanner per entry because the labels of `REG_EXP`
are pairwise distinct. -/
def regStage (listing : Option (List ObjLine)) (regChks : List RegChk)
    (gotReg : List RegW) : List CheckError :=
  let labelErrs := regChks.filterMap fun e =>
    match parse_objdump_for_final_reg_pc listing e.label e.rd with
    | none => some (CheckError.labelNotFound e.label)
    | some _ => none
  let matchErrs := regChks.filterMap fun e =>
    match parse_objdump_for_final_reg_pc listing e.label e.rd with
    | none => none
    | some pc =>
      if gotReg.any (fun w => w.pc == pc && w.rd == e.rd && w.val == e.val) then
        none
      else some (CheckError.missingRegisterWrite pc e.rd e.val e.label)
  labelErrs ++ matchErrs

/-- The verification pipeline of `main` after parsing the log: the exit
code and the printed error list. Stages 1-5 accumulate into one list; if
it is nonempty `main` returns 1 with it; otherwise stage 6 runs and its
errors (if any) are returned with exit code 1, else the run passes. -/
def verify (exp : List ExpEvent) (gd0 : Nat) (misPc : Option Nat)
    (listing : Option (List ObjLine)) (got : List MemW) (gotReg : List RegW) :
    Nat × List CheckError :=
  let errs3 := checkMemStage exp got ++ gdata0Check gd0 got ++
    misalignedCheck misPc got
  if errs3.isEmpty then
    let errs6 := regStage listing REG_EXP gotReg
    if errs6.isEmpty then (0, []) else (1, errs6)
  else (1, errs3)

/-- Direct dict indexing `syms[name]` as used in `main` for the four data
symbols: a `KeyError` (modelled as `Except.error name`) is raised when
the symbol is absent, aborting the run. -/
def dictIndex (syms : String → Option Nat) (name : String) : Except String Nat :=
  match syms name with
  | some a => Except.ok a
  | none => Except.error name

/-- The symbol lookups and `EXP` construction of `main`: `tohost`,
`g_data0`, `g_data1` and `g_buf` are read by direct indexing (KeyError on
absence); the `L_*` labels are read with `syms.get`, so their absence
flows into the expected events as `pc = none`. -/
def buildExpected (syms : String → Option Nat) : Except String (List ExpEvent) := do
  let tohost ← dictIndex syms "tohost"
  let gd0 ← dictIndex syms "g_data0"
  let gd1 ← dictIndex syms "g_data1"
  let gbuf ← dictIndex syms "g_buf"
  pure [⟨syms "L_SW_GDATA0", gd0, 0x12345678, 0xF⟩,
        ⟨syms "L_SW_GDATA1", gd1, 0xABCDEF01, 0xF⟩,
        ⟨syms "L_SW_GBUF", gbuf + 0, 0x11223344, 0xF⟩,
        ⟨syms "L_SH_GBUF_P2", gbuf + 0, 0x33441122, 0xC⟩,
        ⟨syms "L_SB_GBUF_P1", gbuf + 0, 0x22334411, 0x2⟩,
        ⟨syms "L_SW_TOHOST", tohost, 0x1, 0xF⟩]

/-- The scan loop returns the last candidate pc of the block, falling
back to the accumulator when the block has no candidate. -/
lemma scanBlock_eq_getLast_or (rd : Nat) :
    ∀ (ls : List ObjLine) (acc : Option Nat),
      scanBlock rd ls acc = ((blockCands rd ls).getLast?).or acc := by
  intro ls
  induction ls with
  | nil => intro acc; simp [scanBlock, blockCands]
  | cons l rest ih =>
    intro acc
    cases l with
    | labelHeader a n =>
      simp [scanBlock, blockCands, ObjLine.isHeader]
    | insn pc mnem ops =>
      by_cases hc : isCandidateWrite rd mnem ops
      · have hb : blockCands rd (ObjLine.insn pc mnem ops :: rest) =
            pc :: blockCands rd rest := by
          simp [blockCands, ObjLine.isHeader, candPC, hc]
        rw [hb]
        show scanBlock rd rest (if isCandidateWrite rd mnem ops then some pc else acc) =
          (pc :: blockCands rd rest).getLast?.or acc
        rw [if_pos hc, ih, List.getLast?_cons]
        cases h : (blockCands rd rest).getLast? <;> simp [h]
      · have hb : blockCands rd (ObjLine.insn pc mnem ops :: rest) =
            blockCands rd rest := by
          simp [blockCands, ObjLine.isHeader, candPC, hc]
        rw [hb]
        show scanBlock rd rest (if isCandidateWrite rd mnem ops then some pc else acc) =
          (blockCands rd rest).getLast?.or acc
        rw [if_neg hc, ih]
    | other =>
      simp only [scanBlock]
      have hb : blockCands rd (ObjLine.other :: rest) = blockCands rd rest := by
        simp [blockCands, ObjLine.isHeader, candPC]
      rw [hb, ih]

/-- A listing block containing two writes to x5: load-upper-immediate
then an immediate add, followed by the next label. -/
def twoWriteListing : List ObjLine :=
  [.labelHeader 0x10 "L_LI_T0",
   .insn 0x10 "lui" ["t0", "0x12345"],
   .insn 0x14 "addi" ["t0", "t0", "1656"],
   .labelHeader 0x18 "L_NEXT"]

/-- Claim C5: `parse_objdump_for_final_reg_pc` returns `none` when the
listing file is missing, `none` when no line introduces the label, and
otherwise the last (largest line position) candidate-write pc of the
block following the first header for the label, hence `none` when that
block has no candidate; on a block holding two writes to the same
register it returns the pc of the second instruction. -/
theorem findLastWritePC_spec :
    (∀ label rd, parse_objdump_for_final_reg_pc none label rd = none) ∧
    (∀ (lines : List ObjLine) label rd,
      lines.findIdx? (isLabelLine label) = none →
      parse_objdump_for_final_reg_pc (some lines) label rd = none) ∧
    (∀ (lines : List ObjLine) label rd i,
      lines.findIdx? (isLabelLine label) = some i →
      parse_objdump_for_final_reg_pc (some lines) label rd =
        (blockCands rd (lines.drop (i + 1))).getLast?) ∧
    (∀ (lines : List ObjLine) label rd i,
      lines.findIdx? (isLabelLine label) = some i →
      blockCands rd (lines.drop (i + 1)) = [] →
      parse_objdump_for_final_reg_pc (some lines) label rd = none) ∧
    (parse_objdump_for_final_reg_pc (some twoWriteListing) "L_LI_T0" 5 =
      some 0x14) := by
  have key : ∀ (lines : List ObjLine) label rd i,
      lines.findIdx? (isLabelLine label) = some i →
      parse_objdump_for_final_reg_pc (some lines) label rd =
        (blockCands rd (lines.drop (i + 1))).getLast? := by
    intro lines label rd i h
    show (match lines.findIdx? (isLabelLine label) with
      | none => none
      | some i => scanBlock rd (lines.drop (i + 1)) none) =
        (blockCands rd (lines.drop (i + 1))).getLast?
    rw [h]
    show scanBlock rd (lines.drop (i + 1)) none =
      (blockCands rd (lines.drop (i + 1))).getLast?
    rw [scanBlock_eq_getLast_or]
    cases hg : (blockCands rd (lines.drop (i + 1))).getLast? <;> simp [hg]
  refine ⟨fun _ _ => rfl, ?_, key, ?_, by decide⟩
  · intro lines label rd h
    show (match lines.findIdx? (isLabelLine label) with
      | none => none
      | some i => scanBlock rd (lines.drop (i + 1)) none) = none
    rw [h]
  · intro lines label rd i h hb
    rw [key lines label rd i h, hb]
    rfl

/-- Witness for claim C5: on the two-write listing, whose label header is
at index 0, the result is the last candidate of the block. -/
theorem findLastWritePC_spec_witness :
    parse_objdump_for_final_reg_pc (some twoWriteListing) "L_LI_T0" 5 =
      (blockCands 5 (twoWriteListing.drop 1)).getLast? :=
  findLastWritePC_spec.2.2.1 twoWriteListing "L_LI_T0" 5 0 (by decide)

/-- Claim C6 counterexample: the compressed store `c.sw t0,0(sp)` is
classified as a candidate write to x5, although `sw` is a store mnemonic
and neither `sw` nor `c.sw` is in the allow-list: the compressed-mnemonic
escape accepts every mnemonic beginning with `c.`, stores included. -/
theorem compressed_store_candidate :
    isCandidateWrite 5 "c.sw" ["t0", "0(sp)"] = true ∧
    "sw" ∈ store_branch_mnems ∧ "sw" ∉ write_mnems ∧ "c.sw" ∉ write_mnems := by
  decide

/-- Claim C6 (amended): an instruction line is a candidate write to `rd`
iff its first operand is the plain numeric name `x<rd>` or the ABI alias
of `rd` from the fixed four-entry table, its mnemonic is not one of the
nine uncompressed store/conditional-branch mnemonics, and its mnemonic is
in the allow-list or begins with `c.` (any compressed mnemonic,
compressed stores and branches included); consequently no uncompressed
store or conditional-branch mnemonic is ever a candidate. -/
theorem candidate_write_spec (rd : Nat) (mnem : String) (ops : List String) :
    (isCandidateWrite rd mnem ops = true ↔
      (∃ op0 rest, ops = op0 :: rest ∧
        (op0 = "x" ++ toString rd ∨ abi_map rd = some op0)) ∧
      mnem ∉ store_branch_mnems ∧
      (mnem ∈ write_mnems ∨ startsWithCDot mnem = true)) ∧
    (mnem ∈ store_branch_mnems → isCandidateWrite rd mnem ops = false) := by
  constructor
  · cases ops with
    | nil => simp [isCandidateWrite]
    | cons op0 rest =>
      simp only [isCandidateWrite, Bool.and_eq_true, Bool.or_eq_true,
        Bool.not_eq_true', beq_iff_eq, List.contains, List.elem_eq_mem,
        decide_eq_true_eq, decide_eq_false_iff_not]
      constructor
      · rintro ⟨⟨h1, h2⟩, h3⟩
        exact ⟨⟨op0, rest, rfl, by tauto⟩, h2, h3⟩
      · rintro ⟨⟨a, b, hab, h1⟩, h2, h3⟩
        cases hab
        exact ⟨⟨by tauto, h2⟩, h3⟩
  · intro h
    cases ops with
    | nil => rfl
    | cons op0 rest =>
      simp [isCandidateWrite, List.contains, h]

/-- Witness for claim C6 (amended): an immediate add whose first operand
is the ABI alias of x7 is a candidate write to x7. -/
theorem candidate_write_spec_witness :
    isCandidateWrite 7 "addi" ["t2", "t2", "1"] = true :=
  (candidate_write_spec 7 "addi" ["t2", "t2", "1"]).1.mpr
    ⟨⟨"t2", ["t2", "1"], rfl, Or.inr (by decide)⟩, by decide, Or.inl (by decide)⟩

/-- Claim C7: the g_data0 exactly-once check produces a `spuriousWrite`
error iff the observed writes at that address are not exactly one event
carrying the expected data and mask; at most one error is produced and it
carries the count of writes found; writing the address twice with
identical data/mask yields exactly one error, and a single correct write
yields none. -/
theorem gdata0_exactly_once_spec (gd0 : Nat) (got : List MemW) :
    ((∃ c, CheckError.spuriousWrite c ∈ gdata0Check gd0 got) ↔
      ¬ ∃ w, got.filter (fun x => x.addr == gd0) = [w] ∧
        w.data = 0x12345678 ∧ w.mask = 0xF) ∧
    (gdata0Check gd0 got = [] ∨
      gdata0Check gd0 got =
        [CheckError.spuriousWrite (got.filter (fun x => x.addr == gd0)).length]) ∧
    (gdata0Check 0xd4 [⟨0x44, 0xd4, 0x12345678, 0xF⟩, ⟨0x48, 0xd4, 0x12345678, 0xF⟩] =
      [CheckError.spuriousWrite 2]) ∧
    (gdata0Check 0xd4 [⟨0x44, 0xd4, 0x12345678, 0xF⟩] = []) := by
  refine ⟨?_, ?_, by decide, by decide⟩
  · simp only [gdata0Check]
    split
    · next hcond =>
      simp only [List.not_mem_nil, exists_false, false_iff, not_not]
      simp only [Bool.and_eq_true, beq_iff_eq] at hcond
      obtain ⟨⟨h1, h2⟩, h3⟩ := hcond
      obtain ⟨w, hw⟩ := List.length_eq_one.mp h1
      rw [hw, List.headD_cons] at h2 h3
      exact ⟨w, hw, h2, h3⟩
    · next hcond =>
      constructor
      · intro _
        rintro ⟨w, hw, hd, hm⟩
        apply hcond
        rw [hw]
        simp [hd, hm]
      · intro _
        exact ⟨_, List.mem_singleton.mpr rfl⟩
  · simp only [gdata0Check]
    split
    · exact Or.inl rfl
    · exact Or.inr rfl

/-- Witness for claim C7: the empty trace carries a spurious-write error
for the address, so no single correct write to it exists. -/
theorem gdata0_exactly_once_spec_witness :
    ¬ ∃ w : MemW, ([] : List MemW).filter (fun x => x.addr == 0xd4) = [w] ∧
      w.data = 0x12345678 ∧ w.mask = 0xF :=
  (gdata0_exactly_once_spec 0xd4 []).1.mp ⟨0, by decide⟩

/-- Claim C8: with the misaligned-store label resolved to `p`, the
negative check errors iff some observed write has `pc = p`, irrespective
of the addr, data and mask of that event; with the label unresolved it never
errors. -/
theorem misaligned_check_spec (p : Nat) (got : List MemW) :
    (misalignedCheck (some p) got = [CheckError.unexpectedTrapWrite] ↔
      ∃ w ∈ got, w.pc = p) ∧
    (misalignedCheck (some p) got = [] ↔ ∀ w ∈ got, w.pc ≠ p) ∧
    (misalignedCheck none got = []) := by
  by_cases h : (got.any fun w => w.pc == p) = true
  · have he : ∃ w ∈ got, w.pc = p := by simpa using h
    refine ⟨?_, ?_, rfl⟩
    · simp [misalignedCheck, h, he]
    · simp only [misalignedCheck, h, if_true]
      constructor
      · intro habs; exact absurd habs (by simp)
      · intro hall
        obtain ⟨w, hw, hp⟩ := he
        exact absurd hp (hall w hw)
  · rw [Bool.not_eq_true] at h
    have hall : ∀ w ∈ got, w.pc ≠ p := by
      intro w hw
      have := List.any_eq_false.mp h w hw
      simpa using this
    refine ⟨?_, ?_, rfl⟩
    · simp only [misalignedCheck, h, Bool.false_eq_true, if_false]
      constructor
      · intro habs; exact absurd habs (by simp)
      · rintro ⟨w, hw, hp⟩
        exact absurd hp (hall w hw)
    · simp only [misalignedCheck, h, Bool.false_eq_true, if_false]
      exact iff_of_true trivial hall

/-- Witness for claim C8: a write retiring at the misaligned-store pc
triggers the error even though its addr, data and mask match a valid
expected event. -/
theorem misaligned_check_spec_witness :
    misalignedCheck (some 0x44) [⟨0x44, 0xd4, 0x12345678, 0xF⟩] =
      [CheckError.unexpectedTrapWrite] :=
  (misaligned_check_spec 0x44 [⟨0x44, 0xd4, 0x12345678, 0xF⟩]).1.mpr
    ⟨⟨0x44, 0xd4, 0x12345678, 0xF⟩, List.mem_singleton.mpr rfl, rfl⟩

/-- In a strictly sorted list split as `l1 ++ a :: l2`, every element
smaller than `a` lies in `l1`. -/
lemma mem_left_of_lt_of_sorted {l1 l2 : List Nat} {a x : Nat}
    (hs : (l1 ++ a :: l2).Pairwise (· < ·))
    (hx : x ∈ l1 ++ a :: l2) (hlt : x < a) : x ∈ l1 := by
  rcases List.mem_append.mp hx with h | h
  · exact h
  · rcases List.mem_cons.mp h with rfl | h
    · omega
    · have h2 := (List.pairwise_append.mp hs).2.1
      have h3 := (List.pairwise_cons.mp h2).1 x h
      omega

/-- Claim C1: for an expected event with resolved pc `epc`, the
skew-tolerant matcher accepts iff some offset in {0,2,4,6,8} gives an
exact addr/data/mask match at `epc + off`; the recorded position is the
first matching index at the least successful offset (offsets tried in
ascending order); an observed event at `epc + 1` matches at no offset;
and an expected event with no match at any offset contributes a
`missingWrite` error carrying its pc, addr, data and mask. -/
theorem skew_match_spec (got : List MemW) (e : ExpEvent) (epc : Nat) :
    ((matchEvent got e epc).isSome = true ↔
      ∃ off ∈ skewOffsets, ∃ w ∈ got, memwMatchAt e epc off w = true) ∧
    (∀ i, matchEvent got e epc = some i →
      ∃ off ∈ skewOffsets,
        got.findIdx? (memwMatchAt e epc off) = some i ∧
        ∀ off2 ∈ skewOffsets, off2 < off →
          got.findIdx? (memwMatchAt e epc off2) = none) ∧
    (∀ w : MemW, w.pc = epc + 1 → ∀ off ∈ skewOffsets,
      memwMatchAt e epc off w = false) ∧
    (∀ exp : List ExpEvent, e ∈ exp → e.pc = some epc →
      matchEvent got e epc = none →
      CheckError.missingWrite epc e.addr e.data e.mask ∈ (matchStage exp got).1) := by
  refine ⟨?_, ?_, ?_, ?_⟩
  · simp only [matchEvent, List.findSome?_isSome_iff, List.findIdx?_isSome,
      List.any_eq_true]
  · intro i h
    rw [matchEvent] at h
    obtain ⟨l1, a, l2, hdec, ha, hnone⟩ := List.findSome?_eq_some_iff.mp h
    refine ⟨a, ?_, ha, ?_⟩
    · rw [hdec]
      exact List.mem_append_right _ (List.mem_cons_self a l2)
    · intro off2 hmem hlt
      apply hnone
      have hsorted : skewOffsets.Pairwise (· < ·) := by decide
      rw [hdec] at hsorted hmem
      exact mem_left_of_lt_of_sorted hsorted hmem hlt
  · intro w hw off hoff
    have hd : off = 0 ∨ off = 2 ∨ off = 4 ∨ off = 6 ∨ off = 8 := by
      simpa [skewOffsets] using hoff
    have hne : (w.pc == epc + off) = false := by
      rw [beq_eq_false_iff_ne]
      omega
    simp [memwMatchAt, hne]
  · intro exp hmem hpc hnone
    simp only [matchStage, List.mem_filterMap, List.mem_map]
    exact ⟨matchOne got e, ⟨e, hmem, rfl⟩, by simp [matchOne, hpc, hnone]⟩

/-- An observed trace with one write, matching `expEvC1` at skew 4. -/
def gotC1 : List MemW := [⟨0x48, 0xd4, 0x12345678, 0xF⟩]

/-- An expected event matched by `gotC1` at skew offset 4. -/
def expEvC1 : ExpEvent := ⟨some 0x44, 0xd4, 0x12345678, 0xF⟩

/-- An expected event with no match in `gotC1` at any offset. -/
def expEvC1b : ExpEvent := ⟨some 0x50, 1, 2, 3⟩

/-- Witness for claim C1: the matcher accepts `expEvC1` against `gotC1`,
and the unmatched `expEvC1b` yields its `missingWrite` error. -/
theorem skew_match_spec_witness :
    (matchEvent gotC1 expEvC1 0x44).isSome = true ∧
    CheckError.missingWrite 0x50 1 2 3 ∈ (matchStage [expEvC1b] gotC1).1 :=
  ⟨(skew_match_spec gotC1 expEvC1 0x44).1.mpr (by decide),
   (skew_match_spec gotC1 expEvC1b 0x50).2.2.2 [expEvC1b] (by decide) rfl (by decide)⟩

/-- Three expected events in program order. -/
def exp3 : List ExpEvent :=
  [⟨some 0x10, 0xd0, 0xAA, 0xF⟩, ⟨some 0x20, 0xd4, 0xBB, 0xF⟩,
   ⟨some 0x30, 0xd8, 0xCC, 0xF⟩]

/-- A trace in which the event of the third expected entry retires before
that of the second. -/
def got3 : List MemW :=
  [⟨0x10, 0xd0, 0xAA, 0xF⟩, ⟨0x30, 0xd8, 0xCC, 0xF⟩, ⟨0x20, 0xd4, 0xBB, 0xF⟩]

/-- Claim C2: the order check runs only once the matching loop produced
no errors; it emits `orderMismatch i (i+1)` exactly for the adjacent
pairs whose matched positions fail `position[i] < position[i+1]`; and on
a trace where the event of the third expected entry retires before that
of the second, exactly one `orderMismatch 1 2` error results. -/
theorem order_check_spec :
    (∀ exp got, (matchStage exp got).1 ≠ [] →
      checkMemStage exp got = (matchStage exp got).1) ∧
    (∀ (ps : List Nat) i j, CheckError.orderMismatch i j ∈ orderStage ps ↔
      j = i + 1 ∧ i + 1 < ps.length ∧ ps.getD (i + 1) 0 ≤ ps.getD i 0) ∧
    (checkMemStage exp3 got3 = [CheckError.orderMismatch 1 2]) := by
  refine ⟨?_, ?_, by decide⟩
  · intro exp got h
    simp [checkMemStage, List.isEmpty_iff, h]
  · intro ps i j
    simp only [orderStage, List.mem_filterMap, List.mem_range]
    constructor
    · rintro ⟨a, ha, hif⟩
      split at hif
      · next hle =>
        rw [Option.some.injEq] at hif
        injection hif with h1 h2
        subst h1
        refine ⟨h2.symm, by omega, hle⟩
      · exact absurd hif (by simp)
    · rintro ⟨rfl, hlen, hle⟩
      exact ⟨i, by omega, by rw [if_pos hle]⟩

/-- A one-event expected list whose symbol is unresolved, so the matching
loop reports an error. -/
def expW : List ExpEvent := [⟨none, 0, 0, 0⟩]

/-- Witness for claim C2: with a matching-loop error the order check is
skipped, and on positions `[3, 1]` the pair `(0, 1)` is flagged. -/
theorem order_check_spec_witness :
    checkMemStage expW [] = (matchStage expW []).1 ∧
    CheckError.orderMismatch 0 1 ∈ orderStage [3, 1] :=
  ⟨order_check_spec.1 expW [] (by decide),
   (order_check_spec.2.1 [3, 1] 0 1).mpr ⟨rfl, by decide, by decide⟩⟩

/-- A symbol table lacking `tohost` but resolving every other name. -/
def symsNoTohost : String → Option Nat :=
  fun name => if name == "tohost" then none else some 0x100

/-- Claim C3 counterexample: with `tohost` unresolved, expected-event
construction does not record a collected error but aborts the whole run
with an uncaught `KeyError` (the direct indexing `syms["tohost"]`). -/
theorem symbol_crash_counterexample :
    buildExpected symsNoTohost = Except.error "tohost" := rfl

/-- Claim C3 (amended): when the four directly indexed data symbols
(`tohost`, `g_data0`, `g_data1`, `g_buf`) resolve, construction succeeds
whatever the `L_*` labels resolve to, an unresolved label flowing into
its event as `pc = none`; the matching loop then records every such event
as a collected error while still processing the remaining events (one
position slot per expected event, never aborting). -/
theorem symbol_errors_collected :
    (∀ syms t d0 d1 b, syms "tohost" = some t → syms "g_data0" = some d0 →
      syms "g_data1" = some d1 → syms "g_buf" = some b →
      buildExpected syms = Except.ok
        [⟨syms "L_SW_GDATA0", d0, 0x12345678, 0xF⟩,
         ⟨syms "L_SW_GDATA1", d1, 0xABCDEF01, 0xF⟩,
         ⟨syms "L_SW_GBUF", b + 0, 0x11223344, 0xF⟩,
         ⟨syms "L_SH_GBUF_P2", b + 0, 0x33441122, 0xC⟩,
         ⟨syms "L_SB_GBUF_P1", b + 0, 0x22334411, 0x2⟩,
         ⟨syms "L_SW_TOHOST", t, 0x1, 0xF⟩]) ∧
    (∀ exp got (e : ExpEvent), e ∈ exp → e.pc = none →
      CheckError.symbolNotFound e ∈ (matchStage exp got).1) ∧
    (∀ exp got, ((matchStage exp got).2).length = exp.length) := by
  refine ⟨?_, ?_, ?_⟩
  · intro syms t d0 d1 b h1 h2 h3 h4
    simp only [buildExpected, dictIndex, h1, h2, h3, h4]
    rfl
  · intro exp got e hmem hpc
    simp only [matchStage, List.mem_filterMap, List.mem_map]
    exact ⟨matchOne got e, ⟨e, hmem, rfl⟩, by simp [matchOne, hpc]⟩
  · intro exp got
    simp [matchStage]

/-- A symbol table resolving every name to the same address. -/
def symsAll : String → Option Nat := fun _ => some 0x40

/-- Witness for claim C3 (amended): with all four data symbols present
construction succeeds, and a `pc = none` event is recorded as a collected
error in the matching loop. -/
theorem symbol_errors_collected_witness :
    buildExpected symsAll = Except.ok
      [⟨some 0x40, 0x40, 0x12345678, 0xF⟩,
       ⟨some 0x40, 0x40, 0xABCDEF01, 0xF⟩,
       ⟨some 0x40, 0x40 + 0, 0x11223344, 0xF⟩,
       ⟨some 0x40, 0x40 + 0, 0x33441122, 0xC⟩,
       ⟨some 0x40, 0x40 + 0, 0x22334411, 0x2⟩,
       ⟨some 0x40, 0x40, 0x1, 0xF⟩] ∧
    CheckError.symbolNotFound ⟨none, 1, 2, 3⟩ ∈
      (matchStage [⟨none, 1, 2, 3⟩] []).1 :=
  ⟨symbol_errors_collected.1 symsAll 0x40 0x40 0x40 0x40 rfl rfl rfl rfl,
   symbol_errors_collected.2.1 [⟨none, 1, 2, 3⟩] [] ⟨none, 1, 2, 3⟩
     (by decide) rfl⟩

/-- A one-event expected list with an unresolved symbol (stage-1 error). -/
def expBadSym : List ExpEvent := [⟨none, 0, 0, 0⟩]

/-- A trace whose only write retires at pc 7 and touches address 5. -/
def gotMis : List MemW := [⟨7, 5, 5, 5⟩]

/-- Claim C4 counterexample: with a stage-1 error present (an unresolved
symbol), the stage-4 and stage-5 errors are still produced and reported,
so those stages are not gated on stages 1-3 being error-free. -/
theorem stage_gating_counterexample :
    verify expBadSym 0 (some 7) none gotMis [] =
      (1, [CheckError.symbolNotFound ⟨none, 0, 0, 0⟩,
           CheckError.spuriousWrite 0, CheckError.unexpectedTrapWrite]) := by
  decide

/-- Claim C4 (amended): the order check is gated on the matching loop
being error-free; the uniqueness check (stage 4) and the misaligned-pc
check (stage 5) run unconditionally and their errors always appear in
the report; the exact register checks (stage 6) run only when stages 1-5
produced no errors, in which case the report is exactly the stage-6
error list; errors within a reached stage are all collected. -/
theorem stage_gating_spec (exp : List ExpEvent) (gd0 : Nat) (misPc : Option Nat)
    (listing : Option (List ObjLine)) (got : List MemW) (gotReg : List RegW) :
    (∀ err ∈ gdata0Check gd0 got,
      err ∈ (verify exp gd0 misPc listing got gotReg).2) ∧
    (∀ err ∈ misalignedCheck misPc got,
      err ∈ (verify exp gd0 misPc listing got gotReg).2) ∧
    (checkMemStage exp got ++ gdata0Check gd0 got ++ misalignedCheck misPc got = [] →
      (verify exp gd0 misPc listing got gotReg).2 = regStage listing REG_EXP gotReg) ∧
    (checkMemStage exp got ++ gdata0Check gd0 got ++ misalignedCheck misPc got ≠ [] →
      (verify exp gd0 misPc listing got gotReg).2 =
        checkMemStage exp got ++ gdata0Check gd0 got ++ misalignedCheck misPc got) := by
  by_cases hE : checkMemStage exp got ++ gdata0Check gd0 got ++
      misalignedCheck misPc got = []
  · have h4 : gdata0Check gd0 got = [] := by
      rcases List.append_eq_nil.mp hE with ⟨h12, -⟩
      exact (List.append_eq_nil.mp h12).2
    have h5 : misalignedCheck misPc got = [] := (List.append_eq_nil.mp hE).2
    refine ⟨?_, ?_, ?_, fun hne => absurd hE hne⟩
    · intro err he
      rw [h4] at he
      exact absurd he (List.not_mem_nil err)
    · intro err he
      rw [h5] at he
      exact absurd he (List.not_mem_nil err)
    · intro _
      simp only [verify, hE, List.isEmpty_nil, if_true]
      by_cases h6 : regStage listing REG_EXP gotReg = []
      · simp [h6]
      · simp [List.isEmpty_iff, h6]
  · have hf : (checkMemStage exp got ++ gdata0Check gd0 got ++
        misalignedCheck misPc got).isEmpty = false := by
      simpa [List.isEmpty_iff] using hE
    have hv : (verify exp gd0 misPc listing got gotReg) =
        (1, checkMemStage exp got ++ gdata0Check gd0 got ++
          misalignedCheck misPc got) := by
      simp only [verify, hf, Bool.false_eq_true, if_false]
    refine ⟨?_, ?_, fun he => absurd he hE, fun _ => by rw [hv]⟩
    · intro err he
      rw [hv]
      exact List.mem_append_left _ (List.mem_append_right _ he)
    · intro err he
      rw [hv]
      exact List.mem_append_right _ he

/-- Witness for claim C4 (amended): the stage-4 error of the
counterexample input indeed appears in the report although stage 1
errored. -/
theorem stage_gating_spec_witness :
    CheckError.spuriousWrite 0 ∈ (verify expBadSym 0 (some 7) none gotMis []).2 :=
  (stage_gating_spec expBadSym 0 (some 7) none gotMis []).1
    (CheckError.spuriousWrite 0) (by decide)

/-- Claim C9: for each expected register check, a failed pc derivation
yields a `labelNotFound` error for its label; with derived pc `pc`, a
`missingRegisterWrite` error for that check is reported iff no observed
register write carries exactly that pc, rd and val (exact match, no skew
tolerance on the register-write pc). -/
theorem reg_exact_check_spec (listing : Option (List ObjLine))
    (regChks : List RegChk) (gotReg : List RegW) (e : RegChk)
    (hmem : e ∈ regChks) :
    (parse_objdump_for_final_reg_pc listing e.label e.rd = none →
      CheckError.labelNotFound e.label ∈ regStage listing regChks gotReg) ∧
    (∀ pc, parse_objdump_for_final_reg_pc listing e.label e.rd = some pc →
      (CheckError.missingRegisterWrite pc e.rd e.val e.label ∈
          regStage listing regChks gotReg ↔
        ¬ ∃ w ∈ gotReg, w.pc = pc ∧ w.rd = e.rd ∧ w.val = e.val)) := by
  constructor
  · intro hp
    apply List.mem_append_left
    rw [List.mem_filterMap]
    exact ⟨e, hmem, by rw [hp]⟩
  · intro pc hp
    constructor
    · intro hin
      rcases List.mem_append.mp hin with h | h
      · obtain ⟨a, ha, hfa⟩ := List.mem_filterMap.mp h
        split at hfa
        · exact absurd hfa (by simp)
        · exact absurd hfa (by simp)
      · obtain ⟨a, ha, hfa⟩ := List.mem_filterMap.mp h
        split at hfa
        · exact absurd hfa (by simp)
        · next pca hpa =>
          split at hfa
          · exact absurd hfa (by simp)
          · next hany =>
            rw [Option.some.injEq] at hfa
            injection hfa with k1 k2 k3 k4
            rintro ⟨w, hw, hwpc, hwrd, hwval⟩
            apply hany
            rw [List.any_eq_true]
            refine ⟨w, hw, ?_⟩
            simp [hwpc, hwrd, hwval, k1, k2, k3]
    · intro hno
      apply List.mem_append_right
      rw [List.mem_filterMap]
      refine ⟨e, hmem, ?_⟩
      rw [hp]
      have hany : (gotReg.any fun w =>
          w.pc == pc && w.rd == e.rd && w.val == e.val) = false := by
        rw [List.any_eq_false]
        intro w hw hb
        simp only [Bool.and_eq_true, beq_iff_eq] at hb
        exact hno ⟨w, hw, hb.1.1, hb.1.2, hb.2⟩
      show (if (gotReg.any fun w =>
            w.pc == pc && w.rd == e.rd && w.val == e.val) = true then none
          else some (CheckError.missingRegisterWrite pc e.rd e.val e.label)) =
        some (CheckError.missingRegisterWrite pc e.rd e.val e.label)
      rw [hany]
      rfl

/-- A listing whose only block holds one load-immediate to x5. -/
def regListW : List ObjLine :=
  [.labelHeader 0x20 "L_W", .insn 0x20 "li" ["t0", "1"]]

/-- An expected register check resolved by `regListW` to pc 0x20. -/
def regChkW : RegChk := ⟨"L_W", 5, 1⟩

/-- Witness for claim C9: against an empty register-write stream, the
resolved check reports its `missingRegisterWrite` error. -/
theorem reg_exact_check_spec_witness :
    CheckError.missingRegisterWrite 0x20 5 1 "L_W" ∈
      regStage (some regListW) [regChkW] [] :=
  ((reg_exact_check_spec (some regListW) [regChkW] [] regChkW
      (by decide)).2 0x20 (by decide)).mpr
    (by rintro ⟨w, hw, -⟩; simp at hw)

/-- Claim C10: the matcher does not consume observed events: the position
table is a pointwise map over the expected list, each entry computed from
the whole observed list alone, independent of earlier matches; two
expected events whose tolerance windows select the same observed index
are both assigned it with no error from the matching loop, and only the
subsequent order check flags the pair. -/
theorem matcher_nonconsuming_spec :
    (∀ exp got, (matchStage exp got).2 =
      exp.map (fun e => (matchOne got e).2)) ∧
    (∀ got (e1 e2 : ExpEvent) epc1 epc2 p, e1.pc = some epc1 →
      e2.pc = some epc2 → matchEvent got e1 epc1 = some p →
      matchEvent got e2 epc2 = some p →
      matchStage [e1, e2] got = ([], [some p, some p]) ∧
      checkMemStage [e1, e2] got = [CheckError.orderMismatch 0 1]) := by
  constructor
  · intro exp got
    simp [matchStage]
  · intro got e1 e2 epc1 epc2 p h1 h2 hm1 hm2
    have hs : matchStage [e1, e2] got = ([], [some p, some p]) := by
      simp [matchStage, matchOne, h1, h2, hm1, hm2]
    refine ⟨hs, ?_⟩
    simp only [checkMemStage, hs]
    simp [orderStage, List.range_succ]

/-- An expected event matching `gotShared` at skew offset 2. -/
def ewA : ExpEvent := ⟨some 0x10, 0xd0, 0x5, 0xF⟩

/-- An expected event matching `gotShared` at skew offset 4. -/
def ewB : ExpEvent := ⟨some 0xE, 0xd0, 0x5, 0xF⟩

/-- A one-write trace selected by both `ewA` and `ewB`. -/
def gotShared : List MemW := [⟨0x12, 0xd0, 0x5, 0xF⟩]

/-- Witness for claim C10: both expected events are assigned observed
index 0 and the order check alone flags the duplicate assignment. -/
theorem matcher_nonconsuming_spec_witness :
    checkMemStage [ewA, ewB] gotShared = [CheckError.orderMismatch 0 1] :=
  (matcher_nonconsuming_spec.2 gotShared ewA ewB 0x10 0xE 0 rfl rfl
    (by decide) (by decide)).2

end Skiptrap
